import Mathlib

/-!
Shallow embedding of `contracts/pool-manager/src/queries.rs` from the
mantra-dex repository, together with models of the external helpers the
queries call (`compute_swap`, `compute_offer_amount`,
`calculate_stableswap_y`, `get_asset_indexes_in_pool`,
`get_pool_by_identifier`, the `Decimal256` helpers), which are not part of
the analyzed source and are therefore modelled from the specification or
kept as explicit function parameters.

Machine integers are embedded as `Nat` with explicit bounds checks at the
type's modulus wherever the original code performs a checked operation;
fallible code returns `Except ContractError`.
-/

namespace MantraDex

/-- Modulus of the 128-bit unsigned integer type (`Uint128`) used for token amounts. -/
def U128 : Nat := 2 ^ 128

/-- Modulus of the 256-bit unsigned integer type (`Uint256`) used for wide arithmetic. -/
def U256 : Nat := 2 ^ 256

/-- Number of atomic units per whole unit in the 18-fractional-digit
fixed-point type `Decimal256` (`10^18`). -/
def DF : Nat := 10 ^ 18

/-- The contract error kinds reachable from the embedded queries.
`PoolNotFound` models the error of `get_pool_by_identifier` on a missing
pool, `StdNotFound` the raw storage `load` failure, `OverflowErr` any
checked-arithmetic overflow/underflow, `ConversionOverflow` a failed
`Uint256 -> Uint128` conversion, and `Unmodelled` is returned by the
spec-modelled forward solver on the pool family whose formula the spec
leaves external. -/
inductive ContractError where
  | PoolNotFound
  | StdNotFound
  | AssetMismatch
  | NoSwapOperationsProvided
  | OverflowErr
  | DivideByZero
  | ConversionOverflow
  | Unmodelled
  deriving DecidableEq, Repr

/-- `Uint128::checked_sub`: fails on underflow. -/
def u128_checked_sub (a b : Nat) : Except ContractError Nat :=
  if b ≤ a then .ok (a - b) else .error .OverflowErr

/-- `Uint128::checked_mul`: fails when the product exceeds the 128-bit range. -/
def u128_checked_mul (a b : Nat) : Except ContractError Nat :=
  if a * b < U128 then .ok (a * b) else .error .OverflowErr

/-- `Uint128::checked_div`: fails only on a zero divisor. -/
def u128_checked_div (a b : Nat) : Except ContractError Nat :=
  if b = 0 then .error .DivideByZero else .ok (a / b)

/-- `Uint128::try_from(Uint256)`: fails when the value exceeds the 128-bit range. -/
def u128_try_from (a : Nat) : Except ContractError Nat :=
  if a < U128 then .ok a else .error .ConversionOverflow

/-- `Uint128::saturating_sub`: truncated subtraction, floored at zero.
On `Nat` this is exactly `a - b`. -/
def saturating_sub (a b : Nat) : Nat := a - b

/-- The 256-bit fixed-point decimal type with 18 fractional digits:
the represented value is `atomics / 10^18`. -/
structure Decimal256 where
  atomics : Nat
  deriving DecidableEq, Repr

/-- `Decimal256::one()`. -/
def Decimal256.one : Decimal256 := ⟨DF⟩

/-- `Decimal256::checked_sub`: fails on underflow. -/
def Decimal256.checked_sub (a b : Decimal256) : Except ContractError Decimal256 :=
  if b.atomics ≤ a.atomics then .ok ⟨a.atomics - b.atomics⟩ else .error .OverflowErr

/-- `Decimal256::inv`: `None` exactly on zero, otherwise the truncated
multiplicative inverse `10^36 / atomics` (in atomics). -/
def Decimal256.inv (a : Decimal256) : Option Decimal256 :=
  if a.atomics = 0 then none else some ⟨DF * DF / a.atomics⟩

/-- `Decimal256::checked_mul`: full-width product rescaled by `10^18`,
failing when the result exceeds the 256-bit range. -/
def Decimal256.checked_mul (a b : Decimal256) : Except ContractError Decimal256 :=
  if a.atomics * b.atomics / DF < U256 then .ok ⟨a.atomics * b.atomics / DF⟩
  else .error .OverflowErr

/-- Modelled from the spec: `Decimal256Helper::decimal_with_precision`
(the normalizer's `to_wide`, §4.1), which is not part of the analyzed
source. It scales an integer amount with `decimals` fractional digits up
to the 18-fractional-digit fixed point, failing on overflow. -/
def decimal_with_precision (amount decimals : Nat) : Except ContractError Decimal256 :=
  if amount * DF / 10 ^ decimals < U256 then .ok ⟨amount * DF / 10 ^ decimals⟩
  else .error .OverflowErr

/-- Modelled from the spec: `Decimal256Helper::to_uint256_with_precision`
(the normalizer's `to_integer`, §4.1), which is not part of the analyzed
source. It scales a wide fixed-point value down to an integer with
`decimals` fractional digits, truncating, and failing on overflow. -/
def to_uint256_with_precision (d : Decimal256) (decimals : Nat) : Except ContractError Nat :=
  if d.atomics * 10 ^ decimals / DF < U256 then .ok (d.atomics * 10 ^ decimals / DF)
  else .error .OverflowErr

/-- The fee schedule of a pool: protocol, swap and burn rates plus
zero-or-more extra fee rates, each an 18-digit fixed-point fraction. -/
structure PoolFees where
  protocol_fee : Decimal256
  swap_fee : Decimal256
  burn_fee : Decimal256
  extra_fees : List Decimal256
  deriving DecidableEq, Repr

/-- Modelled from the spec: `Fee::compute` (§4.3), not part of the analyzed
source: applies a fee rate to a wide-integer amount, truncating. -/
def fee_compute (rate : Decimal256) (amount : Nat) : Except ContractError Nat :=
  if amount * rate.atomics / DF < U256 then .ok (amount * rate.atomics / DF)
  else .error .OverflowErr

/-- One asset held by a pool: its denom, its decimal count and its reserve
amount (spec §3 models the pool's assets as one ordered list of such
records). -/
structure Asset where
  denom : String
  decimals : Nat
  amount : Nat
  deriving DecidableEq, Repr

/-- The pool curve families. -/
inductive PoolType where
  | ConstantProduct
  | StableSwap (amp : Nat)
  deriving DecidableEq, Repr

/-- A pool snapshot as read by the queries. -/
structure PoolInfo where
  pool_identifier : String
  assets : List Asset
  pool_type : PoolType
  pool_fees : PoolFees
  lp_denom : String
  deriving DecidableEq, Repr

/-- A coin: an amount of a denom. -/
structure Coin where
  amount : Nat
  denom : String
  deriving DecidableEq, Repr

/-- `coin(amount, denom)`. -/
def coin (amount : Nat) (denom : String) : Coin := ⟨amount, denom⟩

/-- The read-only environment a query runs against: the `POOLS` storage map
as an association list keyed by pool identifier (iterated in list order by
`range`), and the bank module's total-supply query, modelled as a total
function. -/
structure Env where
  pools : List (String × PoolInfo)
  supply : String → Nat

/-- Raw `POOLS.load`: association-list lookup, failing with the storage
not-found error. -/
def pools_load (env : Env) (pool_identifier : String) : Except ContractError PoolInfo :=
  match env.pools.lookup pool_identifier with
  | some p => .ok p
  | none => .error .StdNotFound

/-- Modelled from the spec: `get_pool_by_identifier` (§6), not part of the
analyzed source: looks a pool up by identifier, failing with
`PoolNotFound` when absent. -/
def get_pool_by_identifier (env : Env) (pool_identifier : String) :
    Except ContractError PoolInfo :=
  match env.pools.lookup pool_identifier with
  | some p => .ok p
  | none => .error .PoolNotFound

/-- Modelled from the spec: `get_asset_indexes_in_pool` (§4.2), not part of
the analyzed source: resolves the offer and ask denoms inside a pool's
asset list, returning the two asset records, their indexes and their
decimal counts, failing with `AssetMismatch` when either denom is absent. -/
def get_asset_indexes_in_pool (pool : PoolInfo) (offer_denom ask_denom : String) :
    Except ContractError (Asset × Asset × Nat × Nat × Nat × Nat) :=
  match pool.assets.findIdx? (fun a => a.denom = offer_denom),
      pool.assets.findIdx? (fun a => a.denom = ask_denom) with
  | some i, some j =>
      let oa := pool.assets.getD i ⟨"", 0, 0⟩
      let aa := pool.assets.getD j ⟨"", 0, 0⟩
      .ok (oa, aa, i, j, oa.decimals, aa.decimals)
  | _, _ => .error .AssetMismatch

/-- The result of one forward pricing computation (`SwapComputation` /
`SimulationResponse`), all amounts in the ask asset's native precision. -/
structure SwapComputation where
  return_amount : Nat
  spread_amount : Nat
  swap_fee_amount : Nat
  protocol_fee_amount : Nat
  burn_fee_amount : Nat
  extra_fees_amount : Nat
  deriving DecidableEq, Repr

/-- The response of `query_simulation`. -/
structure SimulationResponse where
  return_amount : Nat
  spread_amount : Nat
  swap_fee_amount : Nat
  protocol_fee_amount : Nat
  burn_fee_amount : Nat
  extra_fees_amount : Nat
  deriving DecidableEq, Repr

/-- The result of one reverse pricing computation on the constant-product
curve (`OfferAmountComputation`): note that it carries no extra-fees
component. -/
structure OfferAmountComputation where
  offer_amount : Nat
  spread_amount : Nat
  swap_fee_amount : Nat
  protocol_fee_amount : Nat
  burn_fee_amount : Nat
  deriving DecidableEq, Repr

/-- The response of `query_reverse_simulation`: note that it carries no
extra-fees component. -/
structure ReverseSimulationResponse where
  offer_amount : Nat
  spread_amount : Nat
  swap_fee_amount : Nat
  protocol_fee_amount : Nat
  burn_fee_amount : Nat
  deriving DecidableEq, Repr

/-- The response of `query_asset_decimals`. -/
structure AssetDecimalsResponse where
  pool_identifier : String
  denom : String
  decimals : Nat
  deriving DecidableEq, Repr

/-- A pool paired with the total supply of its liquidity token. -/
structure PoolInfoResponse where
  pool_info : PoolInfo
  total_share : Nat
  deriving DecidableEq, Repr

/-- The response of `get_pools`. -/
structure PoolsResponse where
  pools : List PoolInfoResponse
  deriving DecidableEq, Repr

/-- The response of the multi-hop simulation queries. -/
structure SimulateSwapOperationsResponse where
  amount : Nat
  deriving DecidableEq, Repr

/-- A single hop of a multi-hop swap. -/
inductive SwapOperation where
  | MantraSwap (token_in_denom token_out_denom pool_identifier : String)
  deriving DecidableEq, Repr

/-- The input denom of a hop. -/
def SwapOperation.token_in_denom : SwapOperation → String
  | .MantraSwap t _ _ => t

/-- The output denom of a hop. -/
def SwapOperation.token_out_denom : SwapOperation → String
  | .MantraSwap _ t _ => t

/-- The target pool of a hop. -/
def SwapOperation.pool_identifier : SwapOperation → String
  | .MantraSwap _ _ p => p

/-- The signature of `helpers::compute_swap` as called by
`query_simulation`: asset count, offer reserve, ask reserve, offer amount,
fee schedule, pool type, offer decimals, ask decimals. Its body is not part
of the analyzed source, so the embedding of `query_simulation` takes it as
a parameter. -/
def ComputeSwapFn : Type :=
  Nat → Nat → Nat → Nat → PoolFees → PoolType → Nat → Nat →
    Except ContractError SwapComputation

/-- `query_simulation` (queries.rs lines 47-77): resolves the pool and the
asset indexes, runs the forward swap computation, and packages the result,
extra-fees component included. -/
def query_simulation (computeSwap : ComputeSwapFn) (env : Env) (offer_asset : Coin)
    (ask_asset_denom pool_identifier : String) :
    Except ContractError SimulationResponse := do
  let pool_info ← get_pool_by_identifier env pool_identifier
  let (offer_asset_in_pool, ask_asset_in_pool, _, _, offer_decimal, ask_decimal) ←
    get_asset_indexes_in_pool pool_info offer_asset.denom ask_asset_denom
  let s ← computeSwap pool_info.assets.length offer_asset_in_pool.amount
    ask_asset_in_pool.amount offer_asset.amount pool_info.pool_fees
    pool_info.pool_type offer_decimal ask_decimal
  .ok {
    return_amount := s.return_amount
    spread_amount := s.spread_amount
    swap_fee_amount := s.swap_fee_amount
    protocol_fee_amount := s.protocol_fee_amount
    burn_fee_amount := s.burn_fee_amount
    extra_fees_amount := s.extra_fees_amount }

/-- Modelled from the spec: `helpers::compute_swap` on the constant-product
family (§4.3), not part of the analyzed source. Fee-free output
`Δa = Ra*Δo/(Ro+Δo)` (floored), each fee is its rate times `Δa` (floored),
the return amount deducts all fees, and the spread is the fee-free output
minus return minus fees, floored at zero. The stable-curve forward formula
is left external by the spec (§4.3), so this model fails on stable pools. -/
def compute_swap_cp : ComputeSwapFn := fun _ offer_pool ask_pool offer_amount fees ptype _ _ =>
  match ptype with
  | .StableSwap _ => .error .Unmodelled
  | .ConstantProduct =>
    let free := ask_pool * offer_amount / (offer_pool + offer_amount)
    let sf := free * fees.swap_fee.atomics / DF
    let pf := free * fees.protocol_fee.atomics / DF
    let bf := free * fees.burn_fee.atomics / DF
    let ef := (fees.extra_fees.map (fun r => free * r.atomics / DF)).sum
    let ret := free - (sf + pf + bf + ef)
    .ok {
      return_amount := ret
      spread_amount := free - ret - (sf + pf + bf + ef)
      swap_fee_amount := sf
      protocol_fee_amount := pf
      burn_fee_amount := bf
      extra_fees_amount := ef }

/-- The signature of `query_simulation` as the multi-hop queries invoke it;
both chain embeddings are parametric in it. -/
def SimFn : Type :=
  Env → Coin → String → String → Except ContractError SimulationResponse

/-- One forward hop of `simulate_swap_operations`: simulate swapping the
running amount of the hop's input denom into its output denom and keep the
returned amount. -/
def forward_hop (sim : SimFn) (env : Env) (op : SwapOperation) (amount : Nat) :
    Except ContractError Nat :=
  match op with
  | .MantraSwap token_in_denom token_out_denom pool_identifier =>
    (sim env (coin amount token_in_denom) token_out_denom pool_identifier).map
      (fun r => r.return_amount)

/-- One hop of `reverse_simulate_swap_operations`: the running amount is
denominated in the hop's *output* denom and is simulated back into the
hop's *input* denom — the denom roles are swapped relative to a forward
hop, and the forward simulator is used. -/
def reverse_hop (sim : SimFn) (env : Env) (op : SwapOperation) (amount : Nat) :
    Except ContractError Nat :=
  match op with
  | .MantraSwap token_in_denom token_out_denom pool_identifier =>
    (sim env (coin amount token_out_denom) token_in_denom pool_identifier).map
      (fun r => r.return_amount)

/-- `simulate_swap_operations` (queries.rs lines 223-252): fails on an
empty chain, otherwise folds the forward hops left-to-right starting from
the offer amount. -/
def simulate_swap_operations (sim : SimFn) (env : Env) (offer_amount : Nat)
    (operations : List SwapOperation) :
    Except ContractError SimulateSwapOperationsResponse :=
  if operations.length > 0 then
    (operations.foldlM (fun amount op => forward_hop sim env op amount) offer_amount).map
      (fun a => ⟨a⟩)
  else .error .NoSwapOperationsProvided

/-- `reverse_simulate_swap_operations` (queries.rs lines 256-287): fails on
an empty chain, otherwise folds the reversed hop list starting from the ask
amount, each hop simulated with swapped denom roles. -/
def reverse_simulate_swap_operations (sim : SimFn) (env : Env) (ask_amount : Nat)
    (operations : List SwapOperation) :
    Except ContractError SimulateSwapOperationsResponse :=
  if operations.length = 0 then .error .NoSwapOperationsProvided
  else
    (operations.reverse.foldlM (fun amount op => reverse_hop sim env op amount) ask_amount).map
      (fun a => ⟨a⟩)

/-- `query_asset_decimals` (queries.rs lines 27-44): looks the pool up,
finds the position of the requested denom in the pool's asset list
(failing with `AssetMismatch` when absent) and returns the decimal count
stored at that index. -/
def query_asset_decimals (env : Env) (pool_identifier denom : String) :
    Except ContractError AssetDecimalsResponse := do
  let pool_info ← get_pool_by_identifier env pool_identifier
  match pool_info.assets.findIdx? (fun a => a.denom = denom) with
  | some decimal_index =>
      .ok {
        pool_identifier := pool_identifier
        denom := denom
        decimals := (pool_info.assets.getD decimal_index ⟨"", 0, 0⟩).decimals }
  | none => .error .AssetMismatch

/-- `MAX_LIMIT` (queries.rs line 176). -/
def MAX_LIMIT : Nat := 100

/-- `DEFAULT_LIMIT` (queries.rs line 177). -/
def DEFAULT_LIMIT : Nat := 10

/-- Strict lexicographic order on storage keys, compared code point by
code point (UTF-8 byte order and code-point order agree). -/
def key_lt : List Char → List Char → Bool
  | _, [] => false
  | [], _ :: _ => true
  | a :: as, b :: bs =>
    if a.toNat < b.toNat then true
    else if b.toNat < a.toNat then false
    else key_lt as bs

/-- Strict lexicographic order on identifier strings. -/
def str_lt (a b : String) : Bool := key_lt a.data b.data

/-- `cw_utils::calc_range_start_string`: appends a zero byte to the cursor,
turning "strictly after the cursor" into a raw exclusive bound. -/
def calc_range_start_string : Option String → Option String
  | none => none
  | some s => some (s.push (Char.ofNat 0))

/-- Whether a storage key lies strictly after the raw exclusive bound
(`Bound::ExclusiveRaw`). -/
def after_bound (start : Option String) (key : String) : Bool :=
  match start with
  | none => true
  | some b => str_lt b key

/-- `get_pool` (queries.rs lines 211-219): raw storage load plus the total
supply of the pool's liquidity token. -/
def get_pool (env : Env) (pool_identifier : String) :
    Except ContractError PoolInfoResponse := do
  let pool_info ← pools_load env pool_identifier
  .ok { pool_info := pool_info, total_share := env.supply pool_info.lp_denom }

/-- `get_pools` (queries.rs lines 180-208): with an identifier, exactly
that pool; without, a page of the pool map in storage order, beginning
strictly after the cursor and clamped to at most
`min(limit or DEFAULT_LIMIT, MAX_LIMIT)` entries. -/
def get_pools (env : Env) (pool_identifier start_after : Option String)
    (limit : Option Nat) : Except ContractError PoolsResponse :=
  match pool_identifier with
  | some pid => (get_pool env pid).map (fun r => ⟨[r]⟩)
  | none =>
    let lim := min (limit.getD DEFAULT_LIMIT) MAX_LIMIT
    let start := calc_range_start_string start_after
    let page := (env.pools.filter (fun kv => after_bound start kv.1)).take lim
    .ok ⟨page.map (fun kv => ⟨kv.2, env.supply kv.2.lp_denom⟩)⟩

/-- The before-fees ask amount of the stable reverse simulation
(queries.rs lines 117-126): one minus the protocol, swap and burn rates,
inverted (the inverse defaulting to one when the difference is zero),
times the ask amount lifted to wide fixed point. The extra fees play no
part. -/
def stable_before_fees (pool_fees : PoolFees) (ask_amount ask_decimal : Nat) :
    Except ContractError Decimal256 := do
  let d1 ← Decimal256.checked_sub .one pool_fees.protocol_fee
  let d2 ← Decimal256.checked_sub d1 pool_fees.swap_fee
  let d3 ← Decimal256.checked_sub d2 pool_fees.burn_fee
  let a ← decimal_with_precision ask_amount ask_decimal
  Decimal256.checked_mul ((Decimal256.inv d3).getD .one) a

/-- The precision-rescaling step of the stable reverse simulation
(queries.rs lines 148-157): convert the offer amount from `max_precision`
back to the offer asset's native decimals, branching on their comparison. -/
def offer_amount_rescale (max_precision offer_decimal : Nat) (offer_amount : Nat) :
    Except ContractError Nat :=
  match compare max_precision offer_decimal with
  | .eq => .ok offer_amount
  | .lt => u128_checked_mul offer_amount (10 ^ (offer_decimal - max_precision))
  | .gt => u128_checked_div offer_amount (10 ^ (max_precision - offer_decimal))

/-- The signature of `helpers::calculate_stableswap_y` as called by the
stable reverse branch: asset count, offer reserve (wide), ask reserve
(wide), target amount (wide), amplification, max precision. The direction
flag is fixed at `ReverseSimulate` at this call site, so it is omitted.
Its body is not part of the analyzed source, so the embedding takes it as
a parameter. -/
def StableYFn : Type :=
  Nat → Decimal256 → Decimal256 → Decimal256 → Nat → Nat → Except ContractError Nat

/-- The signature of `helpers::compute_offer_amount` as called by the
constant-product reverse branch; its body is not part of the analyzed
source, so the embedding takes it as a parameter. -/
def ComputeOfferFn : Type :=
  Nat → Nat → Nat → PoolFees → Except ContractError OfferAmountComputation

/-- `query_reverse_simulation` (queries.rs lines 81-173): resolves the
pool and asset indexes, then dispatches on the pool type — constant
product to `compute_offer_amount`, stable to the fee inversion, invariant
solve, precision rescale, saturating spread and fee decomposition. -/
def query_reverse_simulation (solver : StableYFn) (computeOffer : ComputeOfferFn)
    (env : Env) (ask_asset : Coin) (offer_asset_denom pool_identifier : String) :
    Except ContractError ReverseSimulationResponse := do
  let pool_info ← get_pool_by_identifier env pool_identifier
  let (offer_asset_in_pool, ask_asset_in_pool, _, _, offer_decimal, ask_decimal) ←
    get_asset_indexes_in_pool pool_info offer_asset_denom ask_asset.denom
  let pool_fees := pool_info.pool_fees
  match pool_info.pool_type with
  | .ConstantProduct => do
      let c ← computeOffer offer_asset_in_pool.amount ask_asset_in_pool.amount
        ask_asset.amount pool_fees
      .ok {
        offer_amount := c.offer_amount
        spread_amount := c.spread_amount
        swap_fee_amount := c.swap_fee_amount
        protocol_fee_amount := c.protocol_fee_amount
        burn_fee_amount := c.burn_fee_amount }
  | .StableSwap amp => do
      let offer_pool ← decimal_with_precision offer_asset_in_pool.amount offer_decimal
      let ask_pool ← decimal_with_precision ask_asset_in_pool.amount ask_decimal
      let before_fees ← stable_before_fees pool_fees ask_asset.amount ask_decimal
      let before_fees_offer ← to_uint256_with_precision before_fees offer_decimal
      let before_fees_ask ← to_uint256_with_precision before_fees ask_decimal
      let max_precision := max offer_decimal ask_decimal
      let new_offer_pool_amount ←
        solver pool_info.assets.length offer_pool ask_pool before_fees amp max_precision
      let cur256 ← to_uint256_with_precision offer_pool max_precision
      let cur ← u128_try_from cur256
      let offer_amount0 ← u128_checked_sub new_offer_pool_amount cur
      let offer_amount ← offer_amount_rescale max_precision offer_decimal offer_amount0
      let bfo ← u128_try_from before_fees_offer
      let spread_amount := saturating_sub offer_amount bfo
      let swap_fee_amount ← fee_compute pool_fees.swap_fee before_fees_ask
      let protocol_fee_amount ← fee_compute pool_fees.protocol_fee before_fees_ask
      let burn_fee_amount ← fee_compute pool_fees.burn_fee before_fees_ask
      let swap_fee_amount ← u128_try_from swap_fee_amount
      let protocol_fee_amount ← u128_try_from protocol_fee_amount
      let burn_fee_amount ← u128_try_from burn_fee_amount
      .ok {
        offer_amount := offer_amount
        spread_amount := spread_amount
        swap_fee_amount := swap_fee_amount
        protocol_fee_amount := protocol_fee_amount
        burn_fee_amount := burn_fee_amount }

/-- A fee-free schedule used by the concrete test pools. -/
def zero_fees : PoolFees := ⟨⟨0⟩, ⟨0⟩, ⟨0⟩, []⟩

/-- A schedule with one percent protocol, swap and burn fees. -/
def fees_pct : PoolFees := ⟨⟨10 ^ 16⟩, ⟨10 ^ 16⟩, ⟨10 ^ 16⟩, []⟩

/-- A two-asset fee-free constant-product pool with reserves 1000/1000. -/
def pool_cp : PoolInfo :=
  { pool_identifier := "p"
    assets := [⟨"uusd", 6, 1000⟩, ⟨"uluna", 6, 1000⟩]
    pool_type := .ConstantProduct
    pool_fees := zero_fees
    lp_denom := "lp" }

/-- An environment holding only `pool_cp`. -/
def env_cp : Env := ⟨[("p", pool_cp)], fun _ => 0⟩

/-- The hop swapping `uusd` into `uluna` through `pool_cp`. -/
def op_cp : SwapOperation := .MantraSwap "uusd" "uluna" "p"

/-- A two-asset fee-free stable pool with reserves 1000000/1000000 at six
decimals each. -/
def pool_stable : PoolInfo :=
  { pool_identifier := "s"
    assets := [⟨"uusd", 6, 1000000⟩, ⟨"uusdc", 6, 1000000⟩]
    pool_type := .StableSwap 85
    pool_fees := zero_fees
    lp_denom := "lps" }

/-- An environment holding only `pool_stable`. -/
def env_stable : Env := ⟨[("s", pool_stable)], fun _ => 0⟩

/-- A constant invariant solver used to exercise the stable reverse
pipeline on concrete inputs. -/
def solver_const : StableYFn := fun _ _ _ _ _ _ => .ok 1000101

/-- A constant-product reverse helper that ignores its fee argument,
used to exercise extra-fee invariance on concrete inputs. -/
def offer_const : ComputeOfferFn := fun _ _ _ _ => .ok ⟨1, 0, 0, 0, 0⟩

/-- Three pools under ascending identifiers, for the pagination claims. -/
def env_pages : Env :=
  ⟨[("pa", { pool_cp with pool_identifier := "pa" }),
    ("pb", { pool_cp with pool_identifier := "pb" }),
    ("pc", { pool_cp with pool_identifier := "pc" })], fun _ => 0⟩

/-- The page `get_pools` returns on `env_pages` after cursor `pa` with
limit 2. -/
def pages_result : PoolsResponse :=
  ⟨[⟨{ pool_cp with pool_identifier := "pb" }, 0⟩,
    ⟨{ pool_cp with pool_identifier := "pc" }, 0⟩]⟩

theorem except_bind_ok {α β : Type} (a : α) (f : α → Except ContractError β) :
    (Except.ok a >>= f) = f a := rfl

theorem except_bind_err {α β : Type} (e : ContractError) (f : α → Except ContractError β) :
    ((Except.error e : Except ContractError α) >>= f) = .error e := rfl

theorem except_bind_ok2 {α β : Type} (a : α) (f : α → Except ContractError β) :
    Except.bind (Except.ok a) f = f a := rfl

/-- C10: when a pool identifier is supplied, `get_pools` ignores the
cursor and the limit entirely and returns exactly the single pool looked
up by `get_pool` (or its lookup error). -/
theorem C10_get_pools_with_identifier (env : Env) (pid : String)
    (sa sa' : Option String) (l l' : Option Nat) :
    get_pools env (some pid) sa l = (get_pool env pid).map (fun r => ⟨[r]⟩) ∧
    get_pools env (some pid) sa l = get_pools env (some pid) sa' l' :=
  ⟨rfl, rfl⟩

/-- C3: with `max_precision = max(offer_decimals, ask_decimals)`, the
multiply branch of the precision rescale is unreachable
(`max_precision < offer_decimals` is impossible), and the result divides
by `10^(max_precision − offer_decimals)`, which is the identity when the
two are equal. -/
theorem C3_stable_rescale_branch (offer_decimal ask_decimal x : Nat) :
    ¬ (max offer_decimal ask_decimal < offer_decimal) ∧
    offer_amount_rescale (max offer_decimal ask_decimal) offer_decimal x =
      .ok (x / 10 ^ (max offer_decimal ask_decimal - offer_decimal)) := by
  refine ⟨Nat.not_lt.mpr (Nat.le_max_left _ _), ?_⟩
  rcases Nat.lt_or_ge offer_decimal (max offer_decimal ask_decimal) with h | h
  · simp only [offer_amount_rescale, Nat.compare_eq_gt.mpr h, u128_checked_div]
    rw [if_neg (by positivity)]
  · have heq : max offer_decimal ask_decimal = offer_decimal :=
      Nat.le_antisymm h (Nat.le_max_left _ _)
    simp only [offer_amount_rescale, heq, Nat.sub_self, pow_zero, Nat.div_one,
      show compare offer_decimal offer_decimal = Ordering.eq from Nat.compare_eq_eq.mpr rfl]

/-- C5: a two-hop chain simulation equals the manual composition of the
two single-hop simulations, the return amount of the first hop feeding the
second; and a failing first hop aborts the chain with that hop's error. -/
theorem C5_two_hop_composition (sim : SimFn) (env : Env) (amt : Nat)
    (op1 op2 : SwapOperation) :
    (simulate_swap_operations sim env amt [op1, op2] =
      (forward_hop sim env op1 amt).bind
        (fun a1 => (forward_hop sim env op2 a1).map fun a2 => ⟨a2⟩)) ∧
    (∀ e, forward_hop sim env op1 amt = .error e →
      simulate_swap_operations sim env amt [op1, op2] = .error e) := by
  have h1 : simulate_swap_operations sim env amt [op1, op2] =
      (forward_hop sim env op1 amt).bind
        (fun a1 => (forward_hop sim env op2 a1).map fun a2 => ⟨a2⟩) := by
    unfold simulate_swap_operations
    rw [if_pos (by simp)]
    simp only [List.foldlM_cons, List.foldlM_nil]
    cases forward_hop sim env op1 amt with
    | error e => rfl
    | ok a1 =>
      rw [except_bind_ok, except_bind_ok2]
      cases forward_hop sim env op2 a1 with
      | error e => rfl
      | ok a2 => rfl
  exact ⟨h1, fun e he => by rw [h1, he]; rfl⟩

/-- C5 witness: in the concrete constant-product environment, the two-hop
decomposition holds, and a chain whose first hop names a missing pool
fails with that hop's `PoolNotFound` error. -/
theorem C5_two_hop_composition_witness :
    (simulate_swap_operations (query_simulation compute_swap_cp) env_cp 90 [op_cp, op_cp] =
      (forward_hop (query_simulation compute_swap_cp) env_cp op_cp 90).bind
        (fun a1 =>
          (forward_hop (query_simulation compute_swap_cp) env_cp op_cp a1).map
            fun a2 => ⟨a2⟩)) ∧
    simulate_swap_operations (query_simulation compute_swap_cp) env_cp 90
        [.MantraSwap "uusd" "uluna" "zz", op_cp] = .error .PoolNotFound :=
  ⟨(C5_two_hop_composition (query_simulation compute_swap_cp) env_cp 90 op_cp op_cp).1,
    (C5_two_hop_composition (query_simulation compute_swap_cp) env_cp 90
      (.MantraSwap "uusd" "uluna" "zz") op_cp).2 .PoolNotFound rfl⟩

theorem foldlM_hops_err {step : Nat → SwapOperation → Except ContractError Nat}
    (he : ∀ a op, step a op ≠ .error .NoSwapOperationsProvided) :
    ∀ (ops : List SwapOperation) (amt : Nat),
      ops.foldlM step amt ≠ .error .NoSwapOperationsProvided := by
  intro ops
  induction ops with
  | nil =>
    intro amt h
    simp [List.foldlM_nil, pure, Except.pure] at h
  | cons op rest ih =>
    intro amt h
    rw [List.foldlM_cons] at h
    cases hstep : step amt op with
    | error e =>
      rw [hstep, except_bind_err] at h
      exact he amt op (hstep.trans h)
    | ok b =>
      rw [hstep, except_bind_ok] at h
      exact ih b h

theorem forward_hop_ne_nsop {sim : SimFn} {env : Env}
    (hs : ∀ c a p, sim env c a p ≠ .error .NoSwapOperationsProvided)
    (a : Nat) (op : SwapOperation) :
    forward_hop sim env op a ≠ .error .NoSwapOperationsProvided := by
  cases op with
  | MantraSwap tin tout pid =>
    intro hc
    simp only [forward_hop] at hc
    cases h : sim env (coin a tin) tout pid with
    | error e =>
      rw [h] at hc
      simp only [Except.map, Except.error.injEq] at hc
      exact hs _ _ _ (by rw [h, hc])
    | ok r =>
      rw [h] at hc
      simp only [Except.map] at hc
      exact Except.noConfusion hc

theorem reverse_hop_ne_nsop {sim : SimFn} {env : Env}
    (hs : ∀ c a p, sim env c a p ≠ .error .NoSwapOperationsProvided)
    (a : Nat) (op : SwapOperation) :
    reverse_hop sim env op a ≠ .error .NoSwapOperationsProvided := by
  cases op with
  | MantraSwap tin tout pid =>
    intro hc
    simp only [reverse_hop] at hc
    cases h : sim env (coin a tout) tin pid with
    | error e =>
      rw [h] at hc
      simp only [Except.map, Except.error.injEq] at hc
      exact hs _ _ _ (by rw [h, hc])
    | ok r =>
      rw [h] at hc
      simp only [Except.map] at hc
      exact Except.noConfusion hc

/-- C4: both multi-hop simulations fail with the no-operations error
exactly on the empty operation list (provided the per-hop simulation never
itself produces that error), and on the empty list the failure is
immediate, independent of any simulation. -/
theorem C4_no_operations_error (sim : SimFn) (env : Env) (offer ask : Nat)
    (ops : List SwapOperation)
    (hs : ∀ c a p, sim env c a p ≠ .error .NoSwapOperationsProvided) :
    (simulate_swap_operations sim env offer ops = .error .NoSwapOperationsProvided ↔
      ops = []) ∧
    (reverse_simulate_swap_operations sim env ask ops = .error .NoSwapOperationsProvided ↔
      ops = []) := by
  cases ops with
  | nil => exact ⟨⟨fun _ => rfl, fun _ => rfl⟩, ⟨fun _ => rfl, fun _ => rfl⟩⟩
  | cons op rest =>
    constructor
    · constructor
      · intro h
        exfalso
        unfold simulate_swap_operations at h
        rw [if_pos (by simp)] at h
        cases hf : (op :: rest).foldlM
            (fun amount o => forward_hop sim env o amount) offer with
        | error e =>
          rw [hf] at h
          simp only [Except.map, Except.error.injEq] at h
          exact foldlM_hops_err (forward_hop_ne_nsop hs) _ _ (by rw [hf, h])
        | ok a => rw [hf] at h; simp [Except.map] at h
      · intro h; cases h
    · constructor
      · intro h
        exfalso
        unfold reverse_simulate_swap_operations at h
        rw [if_neg (by simp)] at h
        cases hf : (op :: rest).reverse.foldlM
            (fun amount o => reverse_hop sim env o amount) ask with
        | error e =>
          rw [hf] at h
          simp only [Except.map, Except.error.injEq] at h
          exact foldlM_hops_err (reverse_hop_ne_nsop hs) _ _ (by rw [hf, h])
        | ok a => rw [hf] at h; simp [Except.map] at h
      · intro h; cases h

theorem except_map_ok {α β : Type} (f : α → β) (a : α) :
    Except.map f (Except.ok a : Except ContractError α) = .ok (f a) := rfl

theorem except_map_err {α β : Type} (f : α → β) (e : ContractError) :
    Except.map f (Except.error e : Except ContractError α) = .error e := rfl

theorem qsim_cp_ne_nsop (env : Env) (c : Coin) (a p : String) :
    query_simulation compute_swap_cp env c a p ≠ .error .NoSwapOperationsProvided := by
  intro h
  unfold query_simulation at h
  cases h1 : get_pool_by_identifier env p with
  | error e =>
    rw [h1, except_bind_err] at h
    injection h with h2
    subst h2
    unfold get_pool_by_identifier at h1
    cases henv : env.pools.lookup p <;> rw [henv] at h1 <;> simp at h1
  | ok pool =>
    rw [h1, except_bind_ok] at h
    cases h2 : get_asset_indexes_in_pool pool c.denom a with
    | error e =>
      rw [h2, except_bind_err] at h
      injection h with h3
      subst h3
      unfold get_asset_indexes_in_pool at h2
      cases hf1 : pool.assets.findIdx? (fun x => x.denom = c.denom) <;>
        cases hf2 : pool.assets.findIdx? (fun x => x.denom = a) <;>
        rw [hf1, hf2] at h2 <;> simp at h2
    | ok idx =>
      rw [h2, except_bind_ok] at h
      obtain ⟨oa, aa, i, j, od, ad⟩ := idx
      dsimp only at h
      cases h3 : compute_swap_cp pool.assets.length oa.amount aa.amount c.amount
          pool.pool_fees pool.pool_type od ad with
      | error e =>
        rw [h3, except_bind_err] at h
        injection h with h4
        subst h4
        unfold compute_swap_cp at h3
        cases hpt : pool.pool_type <;> rw [hpt] at h3 <;> simp at h3
      | ok s =>
        rw [h3, except_bind_ok] at h
        exact Except.noConfusion h

/-- C4 witness: in the concrete constant-product environment, both
multi-hop queries fail with the no-operations error on the empty list. -/
theorem C4_no_operations_error_witness :
    (simulate_swap_operations (query_simulation compute_swap_cp) env_cp 5 [] =
        .error .NoSwapOperationsProvided ↔ ([] : List SwapOperation) = []) ∧
    (reverse_simulate_swap_operations (query_simulation compute_swap_cp) env_cp 5 [] =
        .error .NoSwapOperationsProvided ↔ ([] : List SwapOperation) = []) :=
  C4_no_operations_error (query_simulation compute_swap_cp) env_cp 5 5 []
    (fun c a p => qsim_cp_ne_nsop env_cp c a p)

/-- C1 (amended): the reverse multi-hop simulation visits the operations
right-to-left starting from the ask amount — the head hop of the list is
applied last, and a one-hop chain is exactly one reverse hop, in which the
hop's input/output denom roles are swapped and the forward simulator is
applied. The amount it returns is the result of this right-to-left
threading, an estimate that need not equal the exact offer-side input the
chain requires (see the counterexample). -/
theorem C1_reverse_chain_right_to_left (sim : SimFn) (env : Env) (ask : Nat)
    (op : SwapOperation) (ops : List SwapOperation) :
    (reverse_simulate_swap_operations sim env ask [op] =
      (reverse_hop sim env op ask).map fun a => ⟨a⟩) ∧
    (ops ≠ [] →
      reverse_simulate_swap_operations sim env ask (op :: ops) =
        (reverse_simulate_swap_operations sim env ask ops) >>= fun r =>
          (reverse_hop sim env op r.amount).map fun a => ⟨a⟩) := by
  constructor
  · unfold reverse_simulate_swap_operations
    rw [if_neg (by simp)]
    simp only [List.reverse_cons, List.reverse_nil, List.nil_append, List.foldlM_cons,
      List.foldlM_nil]
    cases reverse_hop sim env op ask with
    | error e => rfl
    | ok a1 => rfl
  · intro hne
    unfold reverse_simulate_swap_operations
    rw [if_neg (by simp), if_neg (by simpa using hne)]
    rw [List.reverse_cons, List.foldlM_append]
    cases hfold : ops.reverse.foldlM (fun amount o => reverse_hop sim env o amount) ask with
    | error e => rfl
    | ok b =>
      rw [except_bind_ok, except_map_ok, except_bind_ok]
      simp only [List.foldlM_cons, List.foldlM_nil]
      cases reverse_hop sim env op b with
      | error e => rfl
      | ok a2 => rfl

/-- C1 witness: the right-to-left decomposition at a concrete two-hop
chain in the constant-product environment. -/
theorem C1_reverse_chain_right_to_left_witness :
    ([op_cp] ≠ ([] : List SwapOperation)) ∧
    reverse_simulate_swap_operations (query_simulation compute_swap_cp) env_cp 100
        (op_cp :: [op_cp]) =
      (reverse_simulate_swap_operations (query_simulation compute_swap_cp) env_cp 100
          [op_cp]) >>= fun r =>
        (reverse_hop (query_simulation compute_swap_cp) env_cp op_cp r.amount).map
          fun a => ⟨a⟩ :=
  ⟨by simp,
    (C1_reverse_chain_right_to_left (query_simulation compute_swap_cp) env_cp 100 op_cp
      [op_cp]).2 (by simp)⟩

/-- C1 counterexample: for the fee-free 1000/1000 constant-product pool,
the reverse chain on ask amount 100 returns 90, but 90 is not the
offer-side input the chain requires: feeding 90 forward yields 82, not
100, while obtaining 100 requires offering 112. -/
theorem C1_counterexample :
    reverse_simulate_swap_operations (query_simulation compute_swap_cp) env_cp 100 [op_cp] =
      .ok ⟨90⟩ ∧
    simulate_swap_operations (query_simulation compute_swap_cp) env_cp 90 [op_cp] =
      .ok ⟨82⟩ ∧
    (82 : Nat) ≠ 100 ∧
    simulate_swap_operations (query_simulation compute_swap_cp) env_cp 112 [op_cp] =
      .ok ⟨100⟩ ∧
    (90 : Nat) ≠ 112 :=
  ⟨rfl, rfl, by decide, rfl, by decide⟩

/-- C8: for an existing pool, `query_asset_decimals` returns the decimal
count stored at the requested denom's index in the pool's asset list when
the denom is present, and fails with `AssetMismatch` when it is absent —
it is total (never panics) and returns no default. -/
theorem C8_asset_decimals (env : Env) (pid denom : String) (pool : PoolInfo)
    (hp : get_pool_by_identifier env pid = .ok pool) :
    ((denom ∈ pool.assets.map Asset.denom) →
      ∃ i, ∃ h : i < pool.assets.length,
        (pool.assets.get ⟨i, h⟩).denom = denom ∧
        query_asset_decimals env pid denom =
          .ok ⟨pid, denom, (pool.assets.get ⟨i, h⟩).decimals⟩) ∧
    ((denom ∉ pool.assets.map Asset.denom) →
      query_asset_decimals env pid denom = .error .AssetMismatch) := by
  have hq : query_asset_decimals env pid denom =
      (match pool.assets.findIdx? (fun a => a.denom = denom) with
        | some i => .ok ⟨pid, denom, (pool.assets.getD i ⟨"", 0, 0⟩).decimals⟩
        | none => .error .AssetMismatch) := by
    unfold query_asset_decimals
    rw [hp, except_bind_ok]
  constructor
  · intro hmem
    cases hf : pool.assets.findIdx? (fun a => a.denom = denom) with
    | none =>
      exfalso
      rw [List.findIdx?_eq_none_iff] at hf
      obtain ⟨a, ha, had⟩ := List.mem_map.mp hmem
      have hfa := hf a ha
      simp [had] at hfa
    | some i =>
      have hf2 := hf
      rw [List.findIdx?_eq_some_iff_getElem] at hf2
      obtain ⟨hlt, hpi, _⟩ := hf2
      have hdnm : (pool.assets.get ⟨i, hlt⟩).denom = denom := by
        have hpr := of_decide_eq_true hpi
        simpa using hpr
      refine ⟨i, hlt, hdnm, ?_⟩
      rw [hq, hf]
      dsimp only
      rw [List.getD_eq_getElem pool.assets ⟨"", 0, 0⟩ hlt, List.get_eq_getElem]
  · intro hnot
    cases hf : pool.assets.findIdx? (fun a => a.denom = denom) with
    | some i =>
      exfalso
      have hf2 := hf
      rw [List.findIdx?_eq_some_iff_getElem] at hf2
      obtain ⟨hlt, hpi, _⟩ := hf2
      exact hnot (List.mem_map.mpr
        ⟨pool.assets[i], List.getElem_mem hlt, by simpa using of_decide_eq_true hpi⟩)
    | none => rw [hq, hf]

/-- C8 witness: in the concrete environment, the `uluna` lookup succeeds
with the stored decimal count and a foreign denom fails with
`AssetMismatch`. -/
theorem C8_asset_decimals_witness :
    (∃ i, ∃ h : i < pool_cp.assets.length,
        (pool_cp.assets.get ⟨i, h⟩).denom = "uluna" ∧
        query_asset_decimals env_cp "p" "uluna" =
          .ok ⟨"p", "uluna", (pool_cp.assets.get ⟨i, h⟩).decimals⟩) ∧
    query_asset_decimals env_cp "p" "x" = .error .AssetMismatch :=
  ⟨(C8_asset_decimals env_cp "p" "uluna" pool_cp rfl).1 (by decide),
   (C8_asset_decimals env_cp "p" "x" pool_cp rfl).2 (by decide)⟩

/-- C7: in the StableSwap reverse simulation, the reported spread equals
the computed offer amount minus the before-fees amount in offer precision,
by saturating subtraction: whenever the before-fees amount is at least the
offer amount the spread is zero — never negative, and the subtraction
itself never fails. -/
theorem C7_stable_spread_saturating (solver : StableYFn) (computeOffer : ComputeOfferFn)
    (env : Env) (ask_asset : Coin) (offer_denom pid : String)
    (pool : PoolInfo) (amp : Nat) (r : ReverseSimulationResponse)
    (hp : get_pool_by_identifier env pid = .ok pool)
    (ht : pool.pool_type = .StableSwap amp)
    (hr : query_reverse_simulation solver computeOffer env ask_asset offer_denom pid = .ok r) :
    ∃ oa aa i j od ad bf bfo b,
      get_asset_indexes_in_pool pool offer_denom ask_asset.denom = .ok (oa, aa, i, j, od, ad) ∧
      stable_before_fees pool.pool_fees ask_asset.amount ad = .ok bf ∧
      to_uint256_with_precision bf od = .ok bfo ∧
      u128_try_from bfo = .ok b ∧
      r.spread_amount = saturating_sub r.offer_amount b ∧
      (r.offer_amount ≤ b → r.spread_amount = 0) := by
  unfold query_reverse_simulation at hr
  rw [hp, except_bind_ok] at hr
  cases hidx : get_asset_indexes_in_pool pool offer_denom ask_asset.denom with
  | error e => rw [hidx, except_bind_err] at hr; exact Except.noConfusion hr
  | ok idx =>
    obtain ⟨oa, aa, i, j, od, ad⟩ := idx
    rw [hidx, except_bind_ok] at hr
    dsimp only at hr
    rw [ht] at hr
    dsimp only at hr
    cases h1 : decimal_with_precision oa.amount od with
    | error e => rw [h1, except_bind_err] at hr; exact Except.noConfusion hr
    | ok offer_pool =>
    rw [h1, except_bind_ok] at hr
    cases h2 : decimal_with_precision aa.amount ad with
    | error e => rw [h2, except_bind_err] at hr; exact Except.noConfusion hr
    | ok ask_pool =>
    rw [h2, except_bind_ok] at hr
    cases h3 : stable_before_fees pool.pool_fees ask_asset.amount ad with
    | error e => rw [h3, except_bind_err] at hr; exact Except.noConfusion hr
    | ok bf =>
    rw [h3, except_bind_ok] at hr
    cases h4 : to_uint256_with_precision bf od with
    | error e => rw [h4, except_bind_err] at hr; exact Except.noConfusion hr
    | ok bfo =>
    rw [h4, except_bind_ok] at hr
    cases h5 : to_uint256_with_precision bf ad with
    | error e => rw [h5, except_bind_err] at hr; exact Except.noConfusion hr
    | ok bfa =>
    rw [h5, except_bind_ok] at hr
    cases h6 : solver pool.assets.length offer_pool ask_pool bf amp (max od ad) with
    | error e => rw [h6, except_bind_err] at hr; exact Except.noConfusion hr
    | ok newpool =>
    rw [h6, except_bind_ok] at hr
    cases h7 : to_uint256_with_precision offer_pool (max od ad) with
    | error e => rw [h7, except_bind_err] at hr; exact Except.noConfusion hr
    | ok cur256 =>
    rw [h7, except_bind_ok] at hr
    cases h8 : u128_try_from cur256 with
    | error e => rw [h8, except_bind_err] at hr; exact Except.noConfusion hr
    | ok cur =>
    rw [h8, except_bind_ok] at hr
    cases h9 : u128_checked_sub newpool cur with
    | error e => rw [h9, except_bind_err] at hr; exact Except.noConfusion hr
    | ok offer_amount0 =>
    rw [h9, except_bind_ok] at hr
    cases h10 : offer_amount_rescale (max od ad) od offer_amount0 with
    | error e => rw [h10, except_bind_err] at hr; exact Except.noConfusion hr
    | ok offer_amount =>
    rw [h10, except_bind_ok] at hr
    cases h11 : u128_try_from bfo with
    | error e => rw [h11, except_bind_err] at hr; exact Except.noConfusion hr
    | ok b =>
    rw [h11, except_bind_ok] at hr
    cases h12 : fee_compute pool.pool_fees.swap_fee bfa with
    | error e => rw [h12, except_bind_err] at hr; exact Except.noConfusion hr
    | ok sfw =>
    rw [h12, except_bind_ok] at hr
    cases h13 : fee_compute pool.pool_fees.protocol_fee bfa with
    | error e => rw [h13, except_bind_err] at hr; exact Except.noConfusion hr
    | ok pfw =>
    rw [h13, except_bind_ok] at hr
    cases h14 : fee_compute pool.pool_fees.burn_fee bfa with
    | error e => rw [h14, except_bind_err] at hr; exact Except.noConfusion hr
    | ok bfw =>
    rw [h14, except_bind_ok] at hr
    cases h15 : u128_try_from sfw with
    | error e => rw [h15, except_bind_err] at hr; exact Except.noConfusion hr
    | ok sf =>
    rw [h15, except_bind_ok] at hr
    cases h16 : u128_try_from pfw with
    | error e => rw [h16, except_bind_err] at hr; exact Except.noConfusion hr
    | ok pf =>
    rw [h16, except_bind_ok] at hr
    cases h17 : u128_try_from bfw with
    | error e => rw [h17, except_bind_err] at hr; exact Except.noConfusion hr
    | ok bfee =>
    rw [h17, except_bind_ok] at hr
    injection hr with hrr
    refine ⟨oa, aa, i, j, od, ad, bf, bfo, b, rfl, h3, h4, h11, ?_, ?_⟩
    · rw [← hrr]
    · intro hle
      rw [← hrr]
      exact Nat.sub_eq_zero_of_le (by simpa [← hrr] using hle)

/-- C7 witness: the concrete fee-free stable pool with a constant solver
returns offer amount 101 with spread 1 = 101 - 100, the before-fees ask
amount in offer precision being 100. -/
theorem C7_stable_spread_saturating_witness :
    ∃ oa aa i j od ad bf bfo b,
      get_asset_indexes_in_pool pool_stable "uusd" (coin 100 "uusdc").denom =
        .ok (oa, aa, i, j, od, ad) ∧
      stable_before_fees pool_stable.pool_fees (coin 100 "uusdc").amount ad = .ok bf ∧
      to_uint256_with_precision bf od = .ok bfo ∧
      u128_try_from bfo = .ok b ∧
      (⟨101, 1, 0, 0, 0⟩ : ReverseSimulationResponse).spread_amount =
        saturating_sub (⟨101, 1, 0, 0, 0⟩ : ReverseSimulationResponse).offer_amount b ∧
      ((⟨101, 1, 0, 0, 0⟩ : ReverseSimulationResponse).offer_amount ≤ b →
        (⟨101, 1, 0, 0, 0⟩ : ReverseSimulationResponse).spread_amount = 0) :=
  C7_stable_spread_saturating solver_const offer_const env_stable (coin 100 "uusdc")
    "uusd" "s" pool_stable 85 ⟨101, 1, 0, 0, 0⟩ rfl rfl rfl

theorem div_mul_div_bounds (ax af : Nat) (haf : 0 < af) :
    (DF * DF / af) * ax / DF ≤ ax * DF / af ∧
    ax * DF / af ≤ (DF * DF / af) * ax / DF + ax / DF + 1 := by
  have hDF : 0 < DF := by norm_num [DF]
  constructor
  · have h1 : (DF * DF / af) * ax * af ≤ DF * DF * ax := by
      calc (DF * DF / af) * ax * af = (DF * DF / af) * af * ax := by ring
        _ ≤ DF * DF * ax := Nat.mul_le_mul_right ax (Nat.div_mul_le_self _ _)
    have h2 : (DF * DF / af) * ax ≤ DF * DF * ax / af :=
      (Nat.le_div_iff_mul_le haf).mpr h1
    have h3 : (DF * DF / af) * ax / DF ≤ DF * DF * ax / af / DF :=
      Nat.div_le_div_right h2
    have h4 : DF * DF * ax / af / DF = ax * DF / af := by
      rw [Nat.div_div_eq_div_mul]
      rw [show DF * DF * ax = (ax * DF) * DF by ring]
      rw [Nat.mul_div_mul_right _ _ hDF]
    rw [h4] at h3
    exact h3
  · have h5 : DF * DF < (DF * DF / af + 1) * af := by
      have ha := Nat.div_add_mod (DF * DF) af
      have hb := Nat.mod_lt (DF * DF) haf
      have hc : (DF * DF / af + 1) * af = af * (DF * DF / af) + af := by ring
      omega
    have h6 : ax * (DF * DF) ≤ ax * (DF * DF / af + 1) * af := by
      calc ax * (DF * DF) ≤ ax * ((DF * DF / af + 1) * af) :=
            Nat.mul_le_mul_left ax h5.le
        _ = ax * (DF * DF / af + 1) * af := by ring
    have h7 : ax * (DF * DF) / af ≤ ax * (DF * DF / af + 1) := by
      calc ax * (DF * DF) / af ≤ ax * (DF * DF / af + 1) * af / af :=
            Nat.div_le_div_right h6
        _ = ax * (DF * DF / af + 1) := Nat.mul_div_cancel _ haf
    have h8 : ax * DF / af = ax * (DF * DF) / af / DF := by
      rw [Nat.div_div_eq_div_mul]
      rw [show ax * (DF * DF) = (ax * DF) * DF by ring]
      rw [Nat.mul_div_mul_right _ _ hDF]
    rw [h8]
    calc ax * (DF * DF) / af / DF ≤ ax * (DF * DF / af + 1) / DF :=
          Nat.div_le_div_right h7
      _ = (ax * (DF * DF / af) + ax) / DF := by rw [Nat.mul_add, Nat.mul_one]
      _ ≤ ax * (DF * DF / af) / DF + ax / DF + 1 := by
          rw [Nat.add_div hDF]
          split_ifs <;> omega
      _ = (DF * DF / af) * ax / DF + ax / DF + 1 := by rw [Nat.mul_comm ax]

/-- C2: the StableSwap reverse simulation computes the before-fees ask
amount as the ask amount divided by one minus the combined
protocol+swap+burn rate, in 18-digit fixed point: the computed atomics
agree with the exact quotient up to the fixed-point truncation slack, and
when the combined rate is exactly one the divisor defaults to one, so the
before-fees amount is the ask amount unchanged rather than a
division-by-zero failure. -/
theorem C2_stable_fee_inversion (pf sf bf : Nat) (ex : List Decimal256) (ask dec : Nat) :
    ((pf + sf + bf = DF) → ∀ x, decimal_with_precision ask dec = .ok x →
      stable_before_fees ⟨⟨pf⟩, ⟨sf⟩, ⟨bf⟩, ex⟩ ask dec = .ok x) ∧
    ((pf + sf + bf < DF) →
      ∀ d, stable_before_fees ⟨⟨pf⟩, ⟨sf⟩, ⟨bf⟩, ex⟩ ask dec = .ok d →
        d.atomics ≤ (ask * DF / 10 ^ dec) * DF / (DF - (pf + sf + bf)) ∧
        (ask * DF / 10 ^ dec) * DF / (DF - (pf + sf + bf)) ≤
          d.atomics + ask * DF / 10 ^ dec / DF + 1) := by
  have hDF : 0 < DF := by norm_num [DF]
  constructor
  · intro hsum x hx
    have h1 : Decimal256.checked_sub .one ⟨pf⟩ = .ok ⟨DF - pf⟩ := by
      show (if pf ≤ DF then (Except.ok ⟨DF - pf⟩ : Except ContractError Decimal256)
        else .error .OverflowErr) = .ok ⟨DF - pf⟩
      rw [if_pos (by omega : pf ≤ DF)]
    have h2 : Decimal256.checked_sub ⟨DF - pf⟩ ⟨sf⟩ = .ok ⟨DF - pf - sf⟩ := by
      show (if sf ≤ DF - pf then (Except.ok ⟨DF - pf - sf⟩ : Except ContractError Decimal256)
        else .error .OverflowErr) = .ok ⟨DF - pf - sf⟩
      rw [if_pos (by omega : sf ≤ DF - pf)]
    have h3 : Decimal256.checked_sub ⟨DF - pf - sf⟩ ⟨bf⟩ = .ok ⟨DF - pf - sf - bf⟩ := by
      show (if bf ≤ DF - pf - sf then
          (Except.ok ⟨DF - pf - sf - bf⟩ : Except ContractError Decimal256)
        else .error .OverflowErr) = .ok ⟨DF - pf - sf - bf⟩
      rw [if_pos (by omega : bf ≤ DF - pf - sf)]
    have hxa : x.atomics < U256 := by
      unfold decimal_with_precision at hx
      by_cases hc : ask * DF / 10 ^ dec < U256
      · rw [if_pos hc] at hx
        injection hx with h
        rw [← h]
        simpa using hc
      · rw [if_neg hc] at hx
        exact Except.noConfusion hx
    unfold stable_before_fees
    rw [h1, except_bind_ok, h2, except_bind_ok, h3, except_bind_ok, hx, except_bind_ok]
    rw [show DF - pf - sf - bf = 0 by omega]
    have hinv : Decimal256.inv ⟨0⟩ = none := rfl
    rw [hinv, Option.getD_none]
    show (if Decimal256.one.atomics * x.atomics / DF < U256 then
        (Except.ok ⟨Decimal256.one.atomics * x.atomics / DF⟩ : Except ContractError Decimal256)
      else .error .OverflowErr) = .ok x
    rw [show Decimal256.one.atomics * x.atomics / DF = x.atomics from
      Nat.mul_div_cancel_left x.atomics hDF]
    rw [if_pos hxa]
  · intro hsum d hd
    have haf : 0 < DF - (pf + sf + bf) := Nat.sub_pos_of_lt hsum
    have h1 : Decimal256.checked_sub .one ⟨pf⟩ = .ok ⟨DF - pf⟩ := by
      show (if pf ≤ DF then (Except.ok ⟨DF - pf⟩ : Except ContractError Decimal256)
        else .error .OverflowErr) = .ok ⟨DF - pf⟩
      rw [if_pos (by omega : pf ≤ DF)]
    have h2 : Decimal256.checked_sub ⟨DF - pf⟩ ⟨sf⟩ = .ok ⟨DF - pf - sf⟩ := by
      show (if sf ≤ DF - pf then (Except.ok ⟨DF - pf - sf⟩ : Except ContractError Decimal256)
        else .error .OverflowErr) = .ok ⟨DF - pf - sf⟩
      rw [if_pos (by omega : sf ≤ DF - pf)]
    have h3 : Decimal256.checked_sub ⟨DF - pf - sf⟩ ⟨bf⟩ = .ok ⟨DF - (pf + sf + bf)⟩ := by
      show (if bf ≤ DF - pf - sf then
          (Except.ok ⟨DF - pf - sf - bf⟩ : Except ContractError Decimal256)
        else .error .OverflowErr) = .ok ⟨DF - (pf + sf + bf)⟩
      rw [if_pos (by omega : bf ≤ DF - pf - sf)]
      exact congrArg (fun n => (Except.ok (⟨n⟩ : Decimal256) : Except ContractError Decimal256)) (by omega : DF - pf - sf - bf = DF - (pf + sf + bf))
    unfold stable_before_fees at hd
    rw [h1, except_bind_ok, h2, except_bind_ok, h3, except_bind_ok] at hd
    cases hdx : decimal_with_precision ask dec with
    | error e => rw [hdx, except_bind_err] at hd; exact Except.noConfusion hd
    | ok x =>
      rw [hdx, except_bind_ok] at hd
      have hx2 : x = ⟨ask * DF / 10 ^ dec⟩ := by
        unfold decimal_with_precision at hdx
        by_cases hc : ask * DF / 10 ^ dec < U256
        · rw [if_pos hc] at hdx
          injection hdx with h
          exact h.symm
        · rw [if_neg hc] at hdx
          exact Except.noConfusion hdx
      subst hx2
      have hinv : Decimal256.inv ⟨DF - (pf + sf + bf)⟩ =
          some ⟨DF * DF / (DF - (pf + sf + bf))⟩ := by
        show (if DF - (pf + sf + bf) = 0 then (none : Option Decimal256)
          else some (⟨DF * DF / (DF - (pf + sf + bf))⟩ : Decimal256)) =
            some (⟨DF * DF / (DF - (pf + sf + bf))⟩ : Decimal256)
        rw [if_neg (by omega : ¬ DF - (pf + sf + bf) = 0)]
      rw [hinv, Option.getD_some] at hd
      rw [show Decimal256.checked_mul ⟨DF * DF / (DF - (pf + sf + bf))⟩
            ⟨ask * DF / 10 ^ dec⟩ =
          (if (DF * DF / (DF - (pf + sf + bf))) * (ask * DF / 10 ^ dec) / DF < U256 then
            (Except.ok ⟨(DF * DF / (DF - (pf + sf + bf))) * (ask * DF / 10 ^ dec) / DF⟩ :
              Except ContractError Decimal256)
          else .error .OverflowErr) from rfl] at hd
      by_cases hcm :
          (DF * DF / (DF - (pf + sf + bf))) * (ask * DF / 10 ^ dec) / DF < U256
      · rw [if_pos hcm] at hd
        injection hd with hd2
        cases hd2
        exact div_mul_div_bounds (ask * DF / 10 ^ dec) (DF - (pf + sf + bf)) haf
      · rw [if_neg hcm] at hd
        exact Except.noConfusion hd

/-- C2 witness: with the whole unit as combined fee the before-fees amount
is the ask amount unchanged, and with three one-percent fees the computed
atomics sit within the truncation slack of the exact quotient. -/
theorem C2_stable_fee_inversion_witness :
    (stable_before_fees ⟨⟨DF⟩, ⟨0⟩, ⟨0⟩, []⟩ 7 0 = .ok ⟨7 * DF / 10 ^ 0⟩) ∧
    ((⟨103092783505154⟩ : Decimal256).atomics ≤
        (100 * DF / 10 ^ 6) * DF / (DF - (10 ^ 16 + 10 ^ 16 + 10 ^ 16)) ∧
      (100 * DF / 10 ^ 6) * DF / (DF - (10 ^ 16 + 10 ^ 16 + 10 ^ 16)) ≤
        (⟨103092783505154⟩ : Decimal256).atomics + 100 * DF / 10 ^ 6 / DF + 1) :=
  ⟨(C2_stable_fee_inversion DF 0 0 [] 7 0).1 (by decide) ⟨7 * DF / 10 ^ 0⟩ rfl,
   (C2_stable_fee_inversion (10 ^ 16) (10 ^ 16) (10 ^ 16) [] 100 6).2 (by decide)
     ⟨103092783505154⟩ rfl⟩

/-- C9: reverse simulation neither accounts for nor reports extra fees —
the stable fee inversion reads only the protocol, swap and burn rates
(replacing the extra-fee list changes nothing), and the constant-product
reverse response carries exactly the computation's offer, spread, swap,
protocol and burn components (no extra-fees field exists on it) — whereas
the forward simulation response does carry the computation's
extra-fees amount. -/
theorem C9_reverse_ignores_extra_fees (solver : StableYFn) (computeOffer : ComputeOfferFn)
    (computeSwap : ComputeSwapFn) (env : Env) (ask_asset offer_asset : Coin)
    (offer_denom ask_denom pid : String) (pool : PoolInfo)
    (idx : Asset × Asset × Nat × Nat × Nat × Nat) :
    (∀ (fees : PoolFees) (e : List Decimal256) (ask dec : Nat),
      stable_before_fees { fees with extra_fees := e } ask dec =
        stable_before_fees fees ask dec) ∧
    (∀ c, get_pool_by_identifier env pid = .ok pool →
      get_asset_indexes_in_pool pool offer_denom ask_asset.denom = .ok idx →
      pool.pool_type = .ConstantProduct →
      computeOffer idx.1.amount idx.2.1.amount ask_asset.amount pool.pool_fees = .ok c →
      query_reverse_simulation solver computeOffer env ask_asset offer_denom pid =
        .ok ⟨c.offer_amount, c.spread_amount, c.swap_fee_amount, c.protocol_fee_amount,
          c.burn_fee_amount⟩) ∧
    (∀ s, get_pool_by_identifier env pid = .ok pool →
      get_asset_indexes_in_pool pool offer_asset.denom ask_denom = .ok idx →
      computeSwap pool.assets.length idx.1.amount idx.2.1.amount offer_asset.amount
        pool.pool_fees pool.pool_type idx.2.2.2.2.1 idx.2.2.2.2.2 = .ok s →
      query_simulation computeSwap env offer_asset ask_denom pid =
        .ok ⟨s.return_amount, s.spread_amount, s.swap_fee_amount, s.protocol_fee_amount,
          s.burn_fee_amount, s.extra_fees_amount⟩) := by
  obtain ⟨oa, aa, i, j, od, ad⟩ := idx
  refine ⟨?_, ?_, ?_⟩
  · intro fees e ask dec
    rfl
  · intro c hp hidx hpt hc
    unfold query_reverse_simulation
    rw [hp, except_bind_ok, hidx, except_bind_ok]
    dsimp only
    rw [hpt]
    dsimp only at hc ⊢
    rw [hc, except_bind_ok]
  · intro s hp hidx hs
    unfold query_simulation
    rw [hp, except_bind_ok, hidx, except_bind_ok]
    dsimp only
    dsimp only at hs
    rw [hs, except_bind_ok]

/-- C9 witness: concrete runs — the stable fee inversion is unchanged by
an extra fee, the constant-product reverse response is built from the five
components of the reverse computation, and the forward response carries
the extra-fees amount. -/
theorem C9_reverse_ignores_extra_fees_witness :
    (stable_before_fees { fees_pct with extra_fees := [⟨5⟩] } 100 6 =
      stable_before_fees fees_pct 100 6) ∧
    query_reverse_simulation solver_const offer_const env_cp (coin 100 "uluna") "uusd" "p" =
      .ok ⟨1, 0, 0, 0, 0⟩ ∧
    query_simulation compute_swap_cp env_cp (coin 90 "uusd") "uluna" "p" =
      .ok ⟨82, 0, 0, 0, 0, 0⟩ :=
  ⟨(C9_reverse_ignores_extra_fees solver_const offer_const compute_swap_cp env_cp
      (coin 100 "uluna") (coin 90 "uusd") "uusd" "uluna" "p" pool_cp
      (⟨"uusd", 6, 1000⟩, ⟨"uluna", 6, 1000⟩, 0, 1, 6, 6)).1 fees_pct [⟨5⟩] 100 6,
   (C9_reverse_ignores_extra_fees solver_const offer_const compute_swap_cp env_cp
      (coin 100 "uluna") (coin 90 "uusd") "uusd" "uluna" "p" pool_cp
      (⟨"uusd", 6, 1000⟩, ⟨"uluna", 6, 1000⟩, 0, 1, 6, 6)).2.1 ⟨1, 0, 0, 0, 0⟩
      rfl rfl rfl rfl,
   (C9_reverse_ignores_extra_fees solver_const offer_const compute_swap_cp env_cp
      (coin 100 "uluna") (coin 90 "uusd") "uusd" "uluna" "p" pool_cp
      (⟨"uusd", 6, 1000⟩, ⟨"uluna", 6, 1000⟩, 0, 1, 6, 6)).2.2 ⟨82, 0, 0, 0, 0, 0⟩
      rfl rfl rfl⟩

theorem key_lt_append : ∀ (l : List Char) (c : Char), key_lt l (l ++ [c]) = true := by
  intro l c
  induction l with
  | nil => rfl
  | cons a as ih =>
    simp only [List.cons_append, key_lt]
    rw [if_neg (by omega), if_neg (by omega)]
    exact ih

theorem key_lt_trans : ∀ {a b c : List Char}, key_lt a b = true → key_lt b c = true →
    key_lt a c = true := by
  intro a
  induction a with
  | nil =>
    intro b c h1 h2
    cases b with
    | nil => simp [key_lt] at h1
    | cons b1 bs =>
      cases c with
      | nil => simp [key_lt] at h2
      | cons c1 cs => rfl
  | cons a1 as ih =>
    intro b c h1 h2
    cases b with
    | nil => simp [key_lt] at h1
    | cons b1 bs =>
      cases c with
      | nil => simp [key_lt] at h2
      | cons c1 cs =>
        simp only [key_lt] at h1 h2 ⊢
        rcases Nat.lt_trichotomy a1.toNat b1.toNat with hab | hab | hab
        · rcases Nat.lt_trichotomy b1.toNat c1.toNat with hbc | hbc | hbc
          · rw [if_pos (by omega : a1.toNat < c1.toNat)]
          · rw [if_pos (by omega : a1.toNat < c1.toNat)]
          · rw [if_neg (by omega), if_pos hbc] at h2
            simp at h2
        · rw [if_neg (by omega), if_neg (by omega)] at h1
          rcases Nat.lt_trichotomy b1.toNat c1.toNat with hbc | hbc | hbc
          · rw [if_pos (by omega : a1.toNat < c1.toNat)]
          · rw [if_neg (by omega), if_neg (by omega)] at h2
            rw [if_neg (by omega), if_neg (by omega)]
            exact ih h1 h2
          · rw [if_neg (by omega), if_pos hbc] at h2
            simp at h2
        · rw [if_neg (by omega), if_pos hab] at h1
          simp at h1

theorem str_lt_push (s : String) (c : Char) : str_lt s (s.push c) = true :=
  key_lt_append s.data c

theorem str_lt_trans {a b c : String} (h1 : str_lt a b = true) (h2 : str_lt b c = true) :
    str_lt a c = true :=
  key_lt_trans h1 h2

/-- C6: without a pool identifier, `get_pools` returns at most
`min(requested limit, 100)` pools (the limit defaulting to 10 when
absent); with a cursor, every returned pool identifier is strictly greater
than the cursor; and the returned identifiers are in ascending
lexicographic order — provided the storage iterates its keys in strictly
ascending order and stores each pool under its own identifier. -/
theorem C6_get_pools_pagination (env : Env) (sa : Option String) (limit : Option Nat)
    (r : PoolsResponse)
    (hsorted : List.Pairwise (fun a b => str_lt a.1 b.1 = true) env.pools)
    (hid : ∀ kv ∈ env.pools, kv.2.pool_identifier = kv.1)
    (hr : get_pools env none sa limit = .ok r) :
    r.pools.length ≤ min (limit.getD DEFAULT_LIMIT) MAX_LIMIT ∧
    (∀ s, sa = some s → ∀ p ∈ r.pools, str_lt s p.pool_info.pool_identifier = true) ∧
    List.Pairwise (fun a b => str_lt a b = true)
      (r.pools.map (fun p => p.pool_info.pool_identifier)) := by
  unfold get_pools at hr
  injection hr with h
  subst h
  set pred := fun kv : String × PoolInfo => after_bound (calc_range_start_string sa) kv.1
    with hpred
  set lim := min (limit.getD DEFAULT_LIMIT) MAX_LIMIT with hlim
  have hsub : ((env.pools.filter pred).take lim).Sublist env.pools :=
    (List.take_sublist _ _).trans (List.filter_sublist _)
  refine ⟨?_, ?_, ?_⟩
  · rw [List.length_map, List.length_take]
    exact le_trans (Nat.min_le_left _ _) (le_refl _)
  · intro s hsa p hp
    subst hsa
    obtain ⟨kv, hkv, hfkv⟩ := List.mem_map.mp hp
    have hkvf : kv ∈ env.pools.filter pred := (List.take_sublist _ _).subset hkv
    obtain ⟨hkvmem, hkvpred⟩ := List.mem_filter.mp hkvf
    have hb : str_lt (s.push (Char.ofNat 0)) kv.1 = true := hkvpred
    have hs : str_lt s kv.1 = true := str_lt_trans (str_lt_push s (Char.ofNat 0)) hb
    rw [← hfkv]
    show str_lt s kv.2.pool_identifier = true
    rw [hid kv hkvmem]
    exact hs
  · rw [List.pairwise_map, List.pairwise_map]
    have hpage : List.Pairwise (fun a b => str_lt a.1 b.1 = true)
        ((env.pools.filter pred).take lim) :=
      List.Pairwise.sublist hsub hsorted
    exact hpage.imp_of_mem (fun {a b} ha hb hab => by
      have ha2 := hid a (hsub.subset ha)
      have hb2 := hid b (hsub.subset hb)
      show str_lt a.2.pool_identifier b.2.pool_identifier = true
      rw [ha2, hb2]
      exact hab)

/-- C6 witness: on three concrete pools with cursor `pa` and limit 2 the
returned page is the two pools after the cursor, within the limit,
strictly after the cursor, in ascending identifier order. -/
theorem C6_get_pools_pagination_witness :
    pages_result.pools.length ≤ min ((some 2 : Option Nat).getD DEFAULT_LIMIT) MAX_LIMIT ∧
    (∀ s, (some "pa" : Option String) = some s →
      ∀ p ∈ pages_result.pools, str_lt s p.pool_info.pool_identifier = true) ∧
    List.Pairwise (fun a b => str_lt a b = true)
      (pages_result.pools.map fun p => p.pool_info.pool_identifier) :=
  C6_get_pools_pagination env_pages (some "pa") (some 2) pages_result
    (by decide) (by decide) rfl

end MantraDex